import Mathlib

/-!
Verification of the storage core of `proj3-part2-integration`: a block
device over a memory-mapped image (`disk.c`), an allocation bitmap
(`bitmap.c`), a write-back page cache (`cache.c`, `lru.c`, `gdl.c`,
`dl.c`, `fl.c`, `pci.c`) and a disk-resident B-tree (`btr.c`).

The development is a shallow embedding: each C function is translated
into an executable Lean definition over explicit state.  Machine
integers are modelled as `Nat` (with explicit wrap-around where the C
code can overflow), pages as byte functions `Nat → Nat`, heap-allocated
list nodes as arena maps `Nat → Option cell` where the `Nat` address `0`
plays the role of the C `NULL` pointer, and fallible or possibly
non-terminating code returns `Option` (with fuel for recursion that the
C source performs on the on-disk tree).
-/

/-! ### Block device (`disk.c`)

`DiskInterface` is the mmap-ed image: `total_blocks` from the file size
and the bytes of the mapping.  The mapping is modelled as a total
function on byte addresses; accesses beyond `total_blocks * BLOCK_SIZE`
are out of bounds of the real mapping, which the theorems below point
out (the C code performs no range check).
-/

def BLOCK_SIZE : Nat := 4096

def MAX_KEYS : Nat := 4

def MIN_KEYS : Nat := MAX_KEYS / 2

structure DiskInterface where
  total_blocks : Nat
  mem : Nat → Nat

/-- `disk_get_block`: byte offset of block `pnum` inside the mapping
(`disk_base + BLOCK_SIZE * pnum`). -/
def disk_get_block (pnum : Nat) : Nat := BLOCK_SIZE * pnum

/-- `disk_read_block(disk, block_num, buffer)`: memcpy of `BLOCK_SIZE`
bytes from the block into the buffer.  The C function performs no bounds
check on `block_num`; `memcpy` returns its (non-null) destination, so
the returned status is always `0`.  Result: updated buffer and status. -/
def disk_read_block (disk : DiskInterface) (block_num : Nat) (buffer : Nat → Nat) :
    (Nat → Nat) × Int :=
  (fun i => if i < BLOCK_SIZE then disk.mem (disk_get_block block_num + i) else buffer i, 0)

/-- `disk_write_block(disk, block_num, buffer)`: memcpy of `BLOCK_SIZE`
bytes from the buffer into the block; no bounds check, status always `0`. -/
def disk_write_block (disk : DiskInterface) (block_num : Nat) (buffer : Nat → Nat) :
    DiskInterface × Int :=
  ({ disk with
      mem := fun a =>
        if disk_get_block block_num ≤ a ∧ a < disk_get_block block_num + BLOCK_SIZE then
          buffer (a - disk_get_block block_num)
        else disk.mem a }, 0)

/-! ### Node byte layout (`btr.c` lines 13-81, claim C10)

`btree_node_create` and `btree_node_read`/`btree_node_write` address the
node structure at byte offset **1** of the page (`get_block(...) + 1`),
while `btree_insert_nonfull`, `btree_split_child`, `btree_print`, ...
cast the `get_block` pointer directly, i.e. address offset **0**.  We
model the page as bytes and the leading struct member
(`uint64_t block_number`, at struct offset 0, little-endian on the
x86-64 target the image is mapped on) explicitly; `sizeofBTreeNode` is
the x86-64 size of `struct BTreeNode` from `btr.h`. -/

def sizeofBTreeNode : Nat := 112

/-- Byte `i` of the little-endian encoding of a `uint64_t` value. -/
def u64byte (v i : Nat) : Nat := v / 256 ^ i % 256

/-- The serialized bytes of a node whose leading `block_number` member is
`bn`; `rest j` gives byte `8 + j` (the remaining members' bytes). -/
def nodeBytes (bn : Nat) (rest : Nat → Nat) : Nat → Nat :=
  fun i => if i < 8 then u64byte bn i else rest (i - 8)

/-- `btree_node_write`: memcpy of the `sizeof(struct BTreeNode)` bytes to
`get_block(...) + 1`, i.e. page offset 1. -/
def node_write_bytes (page : Nat → Nat) (node : Nat → Nat) : Nat → Nat :=
  fun a => if 1 ≤ a ∧ a < 1 + sizeofBTreeNode then node (a - 1) else page a

/-- Little-endian `uint64_t` read at byte offset `off` of a page. -/
def readU64 (page : Nat → Nat) (off : Nat) : Nat :=
  page off + 256 * (page (off + 1) + 256 * (page (off + 2) + 256 * (page (off + 3) +
    256 * (page (off + 4) + 256 * (page (off + 5) + 256 * (page (off + 6) +
    256 * page (off + 7)))))))

/-- `block_number` as seen by the direct-cast access path
(`(BTreeNode*)get_block(...)`, struct at page offset 0). -/
def direct_block_number (page : Nat → Nat) : Nat := readU64 page 0

/-- `block_number` as seen by `btree_node_read`
(struct copied from page offset 1). -/
def node_read_block_number (page : Nat → Nat) : Nat := readU64 page 1

/-- The all-zeroes page of a freshly allocated block. -/
def zeroPage : Nat → Nat := fun _ => 0

/-! #### Claims C9 and C10 -/

/-- C9 (counterexample): the claim says a read of `block_number ≥
total_blocks` fails with OutOfRange and copies nothing.  On a device
with a single block, reading block 3 returns status 0 (success) and does
copy bytes into the buffer, so the claim is false. -/
theorem disk_read_block_no_range_check :
    let d : DiskInterface := ⟨1, fun _ => 7⟩
    (disk_read_block d 3 (fun _ => 0)).2 = 0 ∧
      (disk_read_block d 3 (fun _ => 0)).1 0 = 7 := by
  constructor <;> rfl

/-- C9 (amended): `disk_read_block` and `disk_write_block` perform no
range check at all: for every `block_number` (in range or not) they
return status 0 and copy exactly `BLOCK_SIZE` bytes — a read after a
write of the same block returns the written bytes, bytes past
`BLOCK_SIZE` of the read buffer are untouched, and other blocks of the
device are unchanged. -/
theorem disk_rw_copies_block (d : DiskInterface) (bn : Nat) (buf buf2 : Nat → Nat)
    (i : Nat) (hi : i < BLOCK_SIZE) (j : Nat) (hj : BLOCK_SIZE ≤ j) :
    (disk_write_block d bn buf).2 = 0 ∧
    (disk_read_block d bn buf2).2 = 0 ∧
    (disk_read_block d bn buf2).1 j = buf2 j ∧
    (disk_read_block (disk_write_block d bn buf).1 bn buf2).1 i = buf i ∧
    (∀ a, a < BLOCK_SIZE * bn → ((disk_write_block d bn buf).1).mem a = d.mem a) := by
  refine ⟨rfl, rfl, ?_, ?_, ?_⟩
  · simp [disk_read_block, Nat.not_lt.mpr hj]
  · simp only [disk_read_block, disk_write_block, disk_get_block]
    simp [hi, Nat.le_add_right, Nat.add_sub_cancel_left]
  · intro a ha
    simp only [disk_write_block, disk_get_block]
    have : ¬(BLOCK_SIZE * bn ≤ a ∧ a < BLOCK_SIZE * bn + BLOCK_SIZE) := by omega
    simp [this]

/-- C9 witness for `disk_rw_copies_block` at concrete inputs. -/
theorem disk_rw_copies_block_witness :
    ((0:Nat) < BLOCK_SIZE ∧ BLOCK_SIZE ≤ BLOCK_SIZE) ∧
    ((disk_write_block ⟨1, fun _ => 7⟩ 0 (fun _ => 3)).2 = 0 ∧
     (disk_read_block ⟨1, fun _ => 7⟩ 0 (fun _ => 9)).2 = 0 ∧
     (disk_read_block ⟨1, fun _ => 7⟩ 0 (fun _ => 9)).1 BLOCK_SIZE = 9 ∧
     (disk_read_block (disk_write_block ⟨1, fun _ => 7⟩ 0 (fun _ => 3)).1 0 (fun _ => 9)).1 0 = 3 ∧
     (∀ a, a < BLOCK_SIZE * 0 → ((disk_write_block ⟨1, fun _ => 7⟩ 0 (fun _ => 3)).1).mem a = 7)) :=
  ⟨⟨by decide, le_refl _⟩,
    disk_rw_copies_block ⟨1, fun _ => 7⟩ 0 (fun _ => 3) (fun _ => 9) 0 (by decide) BLOCK_SIZE (le_refl _)⟩

/-- C10 (counterexample): the claim says the direct-cast access path and
the `btree_node_read` path observe identical nodes.  Writing a node with
`block_number = 1` to a zeroed page via the `btree_node_write` path
(struct at page offset 1) makes the direct-cast path (struct at page
offset 0) read `block_number = 256`, not 1. -/
theorem node_access_paths_disagree :
    direct_block_number (node_write_bytes zeroPage (nodeBytes 1 zeroPage)) = 256 ∧
      node_read_block_number (node_write_bytes zeroPage (nodeBytes 1 zeroPage)) = 1 := by
  constructor <;> decide

/-- C10 (amended): the two access paths are *not* equivalent: the
direct-cast path reads the page one byte below where
`btree_node_write`/`btree_node_read` put the node, so after a node with
leading member `block_number = bn` is stored, the `btree_node_read` path
sees `bn` (mod 2^64) while the direct-cast path sees the stale byte at
page offset 0 followed by the low 7 bytes of `bn` shifted up, i.e.
`page 0 + 256 * (bn mod 2^56)`. -/
theorem node_access_offset_shift (page : Nat → Nat) (bn : Nat) (rest : Nat → Nat) :
    node_read_block_number (node_write_bytes page (nodeBytes bn rest)) = bn % 2 ^ 64 ∧
    direct_block_number (node_write_bytes page (nodeBytes bn rest)) =
      page 0 + 256 * (bn % 2 ^ 56) := by
  unfold node_read_block_number direct_block_number readU64 node_write_bytes nodeBytes
    u64byte sizeofBTreeNode
  norm_num
  omega

/-! ### Allocation bitmap (`bitmap.c`)

`bitmap.c` addresses the page through `uint64_t` words: bit `ii` lives
in word `ii / 64` at position `ii % 64`.  On the little-endian target
this is bit `ii % 8` of byte `ii / 8` of the page, which is how the
byte-level model states it.  The `& ~(1<<k)` / `| (1<<k)` updates are
expressed arithmetically on the byte. -/

def bitmap_get (page : Nat → Nat) (ii : Nat) : Nat :=
  page (ii / 8) / 2 ^ (ii % 8) % 2

def bitmap_put (page : Nat → Nat) (ii vv : Nat) : Nat → Nat :=
  fun a =>
    if a = ii / 8 then
      if vv = 0 then page a - page a / 2 ^ (ii % 8) % 2 * 2 ^ (ii % 8)
      else page a + (1 - page a / 2 ^ (ii % 8) % 2) * 2 ^ (ii % 8)
    else page a

/-- The ascending scan of `alloc_page` (`disk.c:122`): index of the first
clear bit below `n`, if any. -/
def findClear (page : Nat → Nat) : Nat → Option Nat
  | 0 => none
  | n + 1 =>
    match findClear page n with
    | some i => some i
    | none => if bitmap_get page n = 0 then some n else none

/-! ### Buffer pool state (`types.h`)

Heap-allocated `LRU_List` and `GDL` cells live in arenas
`Nat → Option cell`; the address `0` plays the role of `NULL`, freed
cells become `none` (so a use-after-free or a `NULL` dereference of the
C code surfaces as an `Option.none` result).  The lookup hash map and
the per-inode dirty map are chained hash tables keyed by exact match;
they are modelled by their chains (association lists, insertion at the
head of the chain as in the source). -/

def BLOCK_TYPE_DATA : Nat := 0

def BLOCK_TYPE_BTREE_NODE : Nat := 1

structure LruCell where
  index : Nat
  next : Nat
  prev : Nat

structure cache_entry_t where
  dirty_bit : Bool
  pin_count : Nat
  block_number : Nat
  inode_number : Nat
  page_data : Option (Nat → Nat)
  lru_pos : Nat
  gdl_pos : Nat

structure cache where
  cache_size : Nat
  lru_size : Nat
  gdl_size : Nat
  entries : Nat → cache_entry_t
  pci : List (Nat × Nat)
  lru : Nat
  lruMem : Nat → Option LruCell
  lruCtr : Nat
  free_list : List Nat
  dirty_list : List (Nat × List Nat)
  gdl : Nat
  gdlMem : Nat → Option LruCell
  gdlCtr : Nat

def updEntry (f : Nat → cache_entry_t) (i : Nat) (g : cache_entry_t → cache_entry_t) :
    Nat → cache_entry_t :=
  fun j => if j = i then g (f j) else f j

/-! #### Index maps (`pci.c`, `dl.c`) -/

def pci_lookup : List (Nat × Nat) → Nat → Option Nat
  | [], _ => none
  | (b, i) :: rest, bn => if b = bn then some i else pci_lookup rest bn

def pci_insert (pci : List (Nat × Nat)) (bn idx : Nat) : List (Nat × Nat) :=
  (bn, idx) :: pci

/-- `pci_delete` removes the first chain node holding `bn`; when the key
is absent the C code dereferences `NULL` (or an uninitialized `prev`),
modelled as `none`. -/
def pci_delete : List (Nat × Nat) → Nat → Option (List (Nat × Nat))
  | [], _ => none
  | (b, i) :: rest, bn =>
    if b = bn then some rest else (pci_delete rest bn).map ((b, i) :: ·)

def dl_lookup : List (Nat × List Nat) → Nat → Option (List Nat)
  | [], _ => none
  | (i, l) :: rest, inum => if i = inum then some l else dl_lookup rest inum

def updDl : List (Nat × List Nat) → Nat → List Nat → List (Nat × List Nat)
  | [], _, _ => []
  | (i, l) :: rest, inum, l2 =>
    if i = inum then (i, l2) :: rest else (i, l) :: updDl rest inum l2

def dlDelete : List (Nat × List Nat) → Nat → List (Nat × List Nat)
  | [], _ => []
  | (i, l) :: rest, inum => if i = inum then rest else (i, l) :: dlDelete rest inum

def dl_insert (hm : List (Nat × List Nat)) (inum bn : Nat) : List (Nat × List Nat) :=
  match dl_lookup hm inum with
  | none => (inum, [bn]) :: hm
  | some l => if bn ∈ l then hm else updDl hm inum (bn :: l)

/-- `dl_remove_block`: drops `bn` from the inode's dirty list, dropping
the inode entry when its list empties; a removal of an absent block
makes the C code dereference `NULL`, modelled as `none`. -/
def dl_remove_block (hm : List (Nat × List Nat)) (inum bn : Nat) :
    Option (List (Nat × List Nat)) :=
  match dl_lookup hm inum with
  | none => some hm
  | some l =>
    if bn ∈ l then
      let l2 := l.erase bn
      if l2 = [] then some (dlDelete hm inum) else some (updDl hm inum l2)
    else none

/-! #### LRU list (`lru.c`) and global dirty list (`gdl.c`)

Both are translated statement by statement, including the places where
the source forgets to repair a link (`lru_pop` leaves the predecessor's
`next` pointing at the freed cell) or dereferences `NULL` (`gdl_push`
executes `node->prev->next = node` even when the head's `prev` is
`NULL`, which it is after every first push). -/

def lru_push (c : cache) (index : Nat) : Option (Nat × cache) :=
  let p := c.lruCtr
  if c.lru_size > 0 then do
    let head ← c.lruMem c.lru
    let m1 := fun a => if a = p then some (⟨index, c.lru, head.prev⟩ : LruCell) else c.lruMem a
    let hd1 ← m1 c.lru
    let m2 := fun a => if a = c.lru then some { hd1 with prev := p } else m1 a
    if head.prev = 0 then none
    else do
      let tcell ← m2 head.prev
      some (p, { c with
        lruMem := fun a => if a = head.prev then some { tcell with next := p } else m2 a,
        lruCtr := p + 1, lru_size := c.lru_size + 1 })
  else
    some (p, { c with
      lruMem := fun a => if a = p then some (⟨index, p, p⟩ : LruCell) else c.lruMem a,
      lruCtr := p + 1, lru_size := c.lru_size + 1 })

def lru_pop (c : cache) (listPtr : Nat) : Option (Nat × cache) := do
  let cell ← c.lruMem listPtr
  let index ← if cell.prev ≠ 0 then (c.lruMem cell.prev).map (·.index) else pure cell.index
  if c.lru_size > 0 then do
    let temp := cell.prev
    let step ←
      if cell.next ≠ listPtr then do
        let pc ← c.lruMem cell.prev
        pure (fun a => if a = listPtr then some { cell with prev := pc.prev } else c.lruMem a)
      else pure c.lruMem
    pure (index, { c with
      lruMem := fun a => if a = temp then none else step a,
      lru_size := c.lru_size - 1 })
  else
    pure (index, { c with
      lruMem := fun a => if a = listPtr then none else c.lruMem a,
      lru_size := c.lru_size - 1 })

def gdl_push (c : cache) (index : Nat) : Option (Nat × cache) :=
  let p := c.gdlCtr
  if c.gdl_size > 0 then do
    let head ← c.gdlMem c.gdl
    let m1 := fun a => if a = p then some (⟨index, c.gdl, head.prev⟩ : LruCell) else c.gdlMem a
    let hd1 ← m1 c.gdl
    let m2 := fun a => if a = c.gdl then some { hd1 with prev := p } else m1 a
    if head.prev = 0 then none
    else do
      let tcell ← m2 head.prev
      some (p, { c with
        gdlMem := fun a => if a = head.prev then some { tcell with next := p } else m2 a,
        gdlCtr := p + 1, gdl_size := c.gdl_size + 1 })
  else
    some (p, { c with
      gdlMem := fun a => if a = p then some (⟨index, 0, 0⟩ : LruCell) else c.gdlMem a,
      gdlCtr := p + 1, gdl_size := c.gdl_size + 1 })

def gdl_pop (c : cache) (listPtr : Nat) : Option cache := do
  let cell ← c.gdlMem listPtr
  let m1 ←
    if cell.prev ≠ 0 then do
      let pc ← c.gdlMem cell.prev
      pure (fun a => if a = cell.prev then some { pc with next := cell.next } else c.gdlMem a)
    else pure c.gdlMem
  let m2 ←
    if cell.next ≠ 0 then do
      let nc ← m1 cell.next
      pure (fun a => if a = cell.next then some { nc with prev := cell.prev } else m1 a)
    else pure m1
  pure { c with
    gdlMem := fun a => if a = listPtr then none else m2 a,
    gdl_size := c.gdl_size - 1 }

/-! #### `get_block`, `write_block` (`cache.c`) and `alloc_page` (`disk.c`)

`get_block` returns the entry index whose `page_data` is the page the C
pointer points into.  Note two source facts that the model keeps:
the eviction path never consults `pin_count` (the field is never read
anywhere in the source), and both `get_block` and `write_block` test
`block_type == BLOCK_TYPE_DATA` where `block_type` is the *pointer*
`(block_type_t*)page_data`, so the test holds only when the page pointer
itself is `NULL` (`BLOCK_TYPE_DATA` is the enum value `0`); it is
modelled as `page_data.isNone`. -/

def get_block (disk : DiskInterface) (c : cache) (inum pnum : Nat) :
    Option (Nat × cache × DiskInterface) :=
  match pci_lookup c.pci pnum with
  | none => do
    let (c, disk) ←
      if c.free_list.isEmpty then do
        let (cache_index, c) ← lru_pop c c.lru
        let (c, disk) ←
          if (c.entries cache_index).dirty_bit then do
            let e := c.entries cache_index
            let pdNull := e.page_data.isNone
            let pd ← e.page_data
            let disk := (disk_write_block disk e.block_number pd).1
            let ent2 := updEntry c.entries cache_index (fun e => { e with page_data := none })
            let c := { c with entries := ent2 }
            let c ←
              if pdNull then do
                let dl ← dl_remove_block c.dirty_list e.inode_number e.block_number
                pure { c with dirty_list := dl }
              else pure c
            let c ← gdl_pop c (c.entries cache_index).gdl_pos
            pure (c, disk)
          else pure (c, disk)
        let pci ← pci_delete c.pci (c.entries cache_index).block_number
        pure ({ c with pci := pci, free_list := cache_index :: c.free_list }, disk)
      else pure (c, disk)
    match c.free_list with
    | [] => none
    | index :: rest =>
      let c := { c with free_list := rest }
      let fill := fun (e : cache_entry_t) =>
        { e with dirty_bit := false, pin_count := 0, block_number := pnum,
                 inode_number := inum,
                 page_data := some (disk_read_block disk pnum zeroPage).1 }
      let ent3 := updEntry c.entries index fill
      let c := { c with entries := ent3 }
      let (p, c) ← lru_push c index
      let ent4 := updEntry c.entries index (fun e => { e with lru_pos := p })
      let c := { c with entries := ent4, lru := p }
      pure (index, { c with pci := pci_insert c.pci pnum index }, disk)
  | some rv => do
    let cell ← c.lruMem (c.entries rv).lru_pos
    let ptr := cell.next
    let (_, c) ←
      if c.lru_size > 1 then lru_pop c ptr
      else lru_pop c (c.entries rv).lru_pos
    let (p, c) ← lru_push c rv
    let c := { c with entries := updEntry c.entries rv (fun e => { e with lru_pos := p }) }
    pure (rv, c, disk)

def write_block (disk : DiskInterface) (c : cache) (buf : Nat → Nat) (inum pnum : Nat) :
    Option (cache × DiskInterface) := do
  let (index, c, disk) ←
    match pci_lookup c.pci pnum with
    | none => do
      let (_, c, disk) ← get_block disk c inum pnum
      match pci_lookup c.pci pnum with
      | none => none
      | some i => pure (i, c, disk)
    | some i => pure (i, c, disk)
  let e := c.entries index
  let pdNull := e.page_data.isNone
  let pd ← e.page_data
  let copyIn := fun (e : cache_entry_t) =>
    { e with page_data := some (fun i => if i < BLOCK_SIZE then buf i else pd i),
             dirty_bit := true }
  let ent5 := updEntry c.entries index copyIn
  let c := { c with entries := ent5 }
  let c :=
    if pdNull then { c with dirty_list := dl_insert c.dirty_list inum pnum } else c
  let (g, c) ← gdl_push c index
  let ent6 := updEntry c.entries index (fun e => { e with gdl_pos := g })
  let c := { c with gdl := g, entries := ent6 }
  pure (c, disk)

/-- `alloc_page` (`disk.c:114-141`, cache-enabled build): fetch the
bitmap page (block 0) through the pool, scan the bits in ascending
order, set the first clear bit, mark the bitmap's cache entry dirty and
push it on the global dirty list; `-1` when no bit is clear. -/
def alloc_page (disk : DiskInterface) (c : cache) : Option (Int × cache × DiskInterface) := do
  let (pbm, c, disk) ← get_block disk c 0 0
  let page ← (c.entries pbm).page_data
  match findClear page disk.total_blocks with
  | some ii =>
    let ent7 := updEntry c.entries pbm (fun e => { e with page_data := some (bitmap_put page ii 1) })
    let c := { c with entries := ent7 }
    let index ← pci_lookup c.pci 0
    let ent8 := updEntry c.entries index (fun e => { e with dirty_bit := true })
    let c := { c with entries := ent8 }
    let (g, c) ← gdl_push c index
    let ent9 := updEntry c.entries index (fun e => { e with gdl_pos := g })
    let c := { c with gdl := g, entries := ent9 }
    pure ((ii : Int), c, disk)
  | none => pure (-1, c, disk)

/-! #### Claims C6, C7, C8 -/

/-- A one-slot pool holding dirty block 7 (owner inode 9) in its only
entry, which is pinned (`pin_count = 1`); the free list is empty and the
entry sits on the LRU list and the global dirty list. -/
def c6disk : DiskInterface := ⟨32, fun _ => 0⟩

def c6entry : cache_entry_t :=
  { dirty_bit := true, pin_count := 1, block_number := 7, inode_number := 9,
    page_data := some (fun _ => 5), lru_pos := 1, gdl_pos := 1 }

def c6cache : cache :=
  { cache_size := 1, lru_size := 1, gdl_size := 1,
    entries := fun _ => c6entry,
    pci := [(7, 0)],
    lru := 1, lruMem := fun a => if a = 1 then some ⟨0, 1, 1⟩ else none, lruCtr := 2,
    free_list := [],
    dirty_list := [(9, [7])],
    gdl := 1, gdlMem := fun a => if a = 1 then some ⟨0, 0, 0⟩ else none, gdlCtr := 2 }

/-- C6 (counterexample): the claim says a pinned entry is never evicted
and that `get_block` fails CacheExhausted when every entry is pinned.
In `c6cache` every entry is pinned (`pin_count = 1`), yet a miss
(`get_block` of block 8) succeeds and evicts the pinned entry: block 7
is gone from the lookup map and the slot now holds block 8.  The source
never reads `pin_count` and has no CacheExhausted path. -/
theorem get_block_evicts_pinned_entry :
    (c6cache.entries 0).pin_count = 1 ∧ c6cache.free_list = [] ∧
    (get_block c6disk c6cache 9 8).map
        (fun r => (pci_lookup r.2.1.pci 7, (r.2.1.entries 0).block_number)) =
      some (none, 8) := by
  refine ⟨rfl, rfl, ?_⟩
  rfl

/-- C6 (amended): on a miss with an empty free list the victim is the
LRU tail regardless of `pin_count`; a dirty victim is written back
through the device (block 7's bytes reach the disk image), removed from
the global dirty list and the lookup map, and its slot is recycled — but
the per-owner dirty list is not touched (the removal is guarded by a
comparison of the page-data pointer with the enum constant
`BLOCK_TYPE_DATA`, which never holds), and no CacheExhausted failure
exists. -/
theorem get_block_eviction_behavior :
    (get_block c6disk c6cache 9 8).map (fun r =>
        (r.1, pci_lookup r.2.1.pci 8, pci_lookup r.2.1.pci 7, r.2.1.gdl_size,
         r.2.1.dirty_list, r.2.2.mem (BLOCK_SIZE * 7), (r.2.1.entries 0).block_number,
         (r.2.1.entries 0).dirty_bit)) =
      some (0, some 0, none, 0, [(9, [7])], 5, 8, false) := by
  rfl

/-- A fresh two-slot pool as `alloc_cache` builds it (free list pushed
in index order, so slot 1 is on top; all lists empty). -/
def blankEntry : cache_entry_t := ⟨false, 0, 0, 0, none, 0, 0⟩

def c7disk : DiskInterface := ⟨32, fun _ => 0⟩

def c7cache : cache :=
  { cache_size := 2, lru_size := 0, gdl_size := 0,
    entries := fun _ => blankEntry, pci := [], lru := 0,
    lruMem := fun _ => none, lruCtr := 1,
    free_list := [1, 0], dirty_list := [],
    gdl := 0, gdlMem := fun _ => none, gdlCtr := 1 }

/-- C7: the claim says every dirty entry whose block is a DATA block is
in its owner's per-owner dirty set, and is pushed on the global dirty
list only on first dirtying.  Dirtying a DATA-tagged block (leading tag
byte `BLOCK_TYPE_DATA`) for inode 5 leaves the entry dirty but the
per-owner dirty map empty — `write_block` compares the page-data
*pointer* with the enum constant, so `dl_insert` is unreachable — and
dirtying the same block a second time does not skip the push: it pushes
again and crashes (`gdl_push` dereferences the `NULL` `prev` of the
single-element list), modelled as `none`. -/
theorem write_block_dirty_data_not_tracked :
    (write_block c7disk c7cache (fun _ => BLOCK_TYPE_DATA) 5 9).map (fun r =>
        ((r.1.entries 1).dirty_bit, (r.1.entries 1).page_data.map (fun p => p 0),
         r.1.dirty_list, r.1.gdl_size)) =
      some (true, some BLOCK_TYPE_DATA, [], 1) ∧
    (do
      let r ← write_block c7disk c7cache (fun _ => BLOCK_TYPE_DATA) 5 9
      write_block r.2 r.1 (fun _ => BLOCK_TYPE_DATA) 5 9 :
        Option (cache × DiskInterface)) = none := by
  constructor <;> rfl

/-- A one-slot pool whose only entry caches the bitmap block 0 with page
content `w`, clean, on the LRU list; used to run `alloc_page` against an
arbitrary bitmap state. -/
def c8disk (n : Nat) : DiskInterface := ⟨n, fun _ => 0⟩

def c8cache (w : Nat → Nat) : cache :=
  { cache_size := 1, lru_size := 1, gdl_size := 0,
    entries := fun _ => ⟨false, 0, 0, 0, some w, 1, 0⟩,
    pci := [(0, 0)], lru := 1,
    lruMem := fun a => if a = 1 then some ⟨0, 1, 1⟩ else none, lruCtr := 2,
    free_list := [], dirty_list := [],
    gdl := 0, gdlMem := fun _ => none, gdlCtr := 1 }

theorem findClear_none (w : Nat → Nat) (n : Nat) (h : ∀ i, i < n → bitmap_get w i = 1) :
    findClear w n = none := by
  induction n with
  | zero => rfl
  | succ n ih =>
    unfold findClear
    rw [ih (fun i hi => h i (by omega))]
    simp [h n (by omega)]

theorem findClear_least (w : Nat → Nat) (i0 : Nat) (h0 : bitmap_get w i0 = 0)
    (hbelow : ∀ j, j < i0 → bitmap_get w j = 1) :
    ∀ n, i0 < n → findClear w n = some i0 := by
  intro n
  induction n with
  | zero => omega
  | succ n ih =>
    intro hlt
    unfold findClear
    rcases Nat.lt_or_ge i0 n with h | h
    · rw [ih h]
    · have hn : i0 = n := by omega
      subst hn
      rw [findClear_none w i0 hbelow]
      simp [h0]

theorem bitmap_get_put_self (w : Nat → Nat) (i : Nat) :
    bitmap_get (bitmap_put w i 1) i = 1 := by
  unfold bitmap_get bitmap_put
  simp only [if_pos rfl]
  norm_num
  have hk : i % 8 < 8 := Nat.mod_lt _ (by norm_num)
  generalize i % 8 = k at hk ⊢
  generalize w (i / 8) = b
  interval_cases k <;> omega

theorem bitmap_get_put_other (w : Nat → Nat) (i j : Nat) (hne : j ≠ i) :
    bitmap_get (bitmap_put w i 1) j = bitmap_get w j := by
  unfold bitmap_get bitmap_put
  by_cases hb : j / 8 = i / 8
  · rw [if_pos hb, hb]
    norm_num
    have hkj : j % 8 < 8 := Nat.mod_lt _ (by norm_num)
    have hki : i % 8 < 8 := Nat.mod_lt _ (by norm_num)
    have hkk : i % 8 ≠ j % 8 := by omega
    generalize i % 8 = k at hki hkk ⊢
    generalize j % 8 = k' at hkj hkk ⊢
    generalize w (i / 8) = b
    interval_cases k <;> interval_cases k' <;> omega
  · rw [if_neg hb]

/-- C8: `alloc_block` on any bitmap state: when `i0` is the lowest clear
bit below `total_blocks`, `alloc_page` returns `i0`, sets exactly bit
`i0` of the cached bitmap page (every other bit unchanged), and dirties
the bitmap page through the pool (entry dirty, pushed on the global
dirty list); when every bit below `total_blocks` is set it fails with
the no-space value `-1` and dirties nothing. -/
theorem alloc_page_first_clear_bit (w : Nat → Nat) (N i0 : Nat) :
    (i0 < N → bitmap_get w i0 = 0 → (∀ j, j < i0 → bitmap_get w j = 1) →
      (alloc_page (c8disk N) (c8cache w)).map (fun r =>
          (r.1, (r.2.1.entries 0).dirty_bit, r.2.1.gdl_size,
           (r.2.1.entries 0).page_data.map (fun p => bitmap_get p i0))) =
        some ((i0 : Int), true, 1, some 1) ∧
      (∀ j, j ≠ i0 →
        (alloc_page (c8disk N) (c8cache w)).map (fun r =>
            (r.2.1.entries 0).page_data.map (fun p => bitmap_get p j)) =
          some (some (bitmap_get w j)))) ∧
    ((∀ i, i < N → bitmap_get w i = 1) →
      (alloc_page (c8disk N) (c8cache w)).map (fun r =>
          (r.1, (r.2.1.entries 0).dirty_bit, r.2.1.gdl_size)) =
        some (-1, false, 0)) := by
  constructor
  · intro hlt h0 hbelow
    have hfc := findClear_least w i0 h0 hbelow N hlt
    constructor
    · simp [alloc_page, get_block, pci_lookup, lru_pop, lru_push, gdl_push, updEntry,
        c8cache, c8disk, hfc, bitmap_get_put_self]
    · intro j hj
      simp [alloc_page, get_block, pci_lookup, lru_pop, lru_push, gdl_push, updEntry,
        c8cache, c8disk, hfc, bitmap_get_put_other w i0 j hj]
  · intro hall
    have hfc := findClear_none w N hall
    simp [alloc_page, get_block, pci_lookup, lru_pop, lru_push, gdl_push, updEntry,
      c8cache, c8disk, hfc]

def w0 : Nat → Nat := fun a => if a = 0 then 1 else 0

theorem bitmap_get_all255 (i : Nat) : bitmap_get (fun _ => 255) i = 1 := by
  unfold bitmap_get
  have hk : i % 8 < 8 := Nat.mod_lt _ (by norm_num)
  generalize i % 8 = k at hk ⊢
  interval_cases k <;> norm_num

/-- C8 witness for `alloc_page_first_clear_bit`: on the bitmap whose
byte 0 is 1 the lowest clear bit is 1, and on the all-ones bitmap the
allocator reports no space. -/
theorem alloc_page_first_clear_bit_witness :
    ((alloc_page (c8disk 32) (c8cache w0)).map (fun r =>
        (r.1, (r.2.1.entries 0).dirty_bit, r.2.1.gdl_size,
         (r.2.1.entries 0).page_data.map (fun p => bitmap_get p 1))) =
      some ((1 : Int), true, 1, some 1) ∧
     (∀ j, j ≠ 1 →
       (alloc_page (c8disk 32) (c8cache w0)).map (fun r =>
           (r.2.1.entries 0).page_data.map (fun p => bitmap_get p j)) =
         some (some (bitmap_get w0 j)))) ∧
    (alloc_page (c8disk 32) (c8cache (fun _ => 255))).map (fun r =>
        (r.1, (r.2.1.entries 0).dirty_bit, r.2.1.gdl_size)) =
      some (-1, false, 0) :=
  ⟨(alloc_page_first_clear_bit w0 32 1).1 (by decide) (by decide)
      (fun j hj => by
        have hj0 : j = 0 := by omega
        subst hj0
        decide),
    (alloc_page_first_clear_bit (fun _ => 255) 32 0).2
      (fun i _ => bitmap_get_all255 i)⟩

/-! ### B-tree (`btr.c`)

The B-tree functions are translated over a node-granularity store
`BSt`: `nodes b` is the node held in block `b` and `bitmap` is the
allocation bitmap of block 0 at bit granularity (its byte-level
behaviour through the pool is what claim C8 verifies; claim C10 settles
the one-byte offset mismatch between the two C node-access paths, and
this store model identifies the two paths at node granularity, which is
what every `btr.c` routine assumes).

Source facts kept by the model:
* `btr.c` uses `node->key` and `node->value` although `btr.h` declares
  no such members (the repository does not compile as committed); the
  model gives `BTreeNode` both fields since every `btr.c` routine needs
  them.
* `num_keys` is a `uint16_t`; decrements use `dec16` (wrap at 0).
* The code indexes `keys` up to `[4]` and `children` up to `[5]`, out
  of bounds of `keys[MAX_KEYS]`/`children[MAX_KEYS+1]`.  On the x86-64
  layout of `struct BTreeNode` the arrays are adjacent, so `keys[4]`
  is `children[0]` and `children[5]` is `parent`; the accessors
  `kget`/`kput`/`cget`/`cput` encode exactly this aliasing.
* C locals of type `BTreeNode` filled by `btree_node_read` are copies
  (their mutation does not reach the store until `btree_node_write`),
  while pointers obtained from `get_block` or `btree_node_create` are
  live (mutation through them hits the store at once).  Functions that
  receive a `BTreeNode*` that is a stack copy at one call site and a
  live pointer at another take a `NodeRef`.
* Recursion that the C source performs over the on-disk structure
  (which need not terminate on a corrupt store) takes fuel; exhausted
  fuel returns the function's error value (`-1`/`0`) or `none`.
-/

structure BTreeNode where
  block_number : Nat
  is_leaf : Bool
  num_keys : Nat
  keys : Nat → Nat
  children : Nat → Nat
  parent : Nat
  left_sibling : Nat
  right_sibling : Nat
  key : Nat
  value : Nat

structure BSt where
  total_blocks : Nat
  bitmap : Nat → Bool
  nodes : Nat → BTreeNode

def dec16 (n : Nat) : Nat := (n + 65535) % 65536

/-- `keys[i]`: for `i < MAX_KEYS` the array cell, for `i = MAX_KEYS` the
adjacent `children[0]` (x86-64 layout). -/
def kget (n : BTreeNode) (i : Nat) : Nat :=
  if i < MAX_KEYS then n.keys i else n.children (i - MAX_KEYS)

def kput (n : BTreeNode) (i v : Nat) : BTreeNode :=
  if i < MAX_KEYS then { n with keys := fun j => if j = i then v else n.keys j }
  else { n with children := fun j => if j = i - MAX_KEYS then v else n.children j }

/-- `children[i]`: for `i ≤ MAX_KEYS` the array cell, for
`i = MAX_KEYS + 1` the adjacent `parent` member (x86-64 layout). -/
def cget (n : BTreeNode) (i : Nat) : Nat :=
  if i < MAX_KEYS + 1 then n.children i else n.parent

def cput (n : BTreeNode) (i v : Nat) : BTreeNode :=
  if i < MAX_KEYS + 1 then { n with children := fun j => if j = i then v else n.children j }
  else { n with parent := v }

def updNode (st : BSt) (b : Nat) (f : BTreeNode → BTreeNode) : BSt :=
  { st with nodes := fun j => if j = b then f (st.nodes j) else st.nodes j }

/-- `btree_node_read`: copy the node out of the store (the `memcpy`
cannot fail; callers ignore the status). -/
def btree_node_read (st : BSt) (b : Nat) : BTreeNode := st.nodes b

/-- `btree_node_write`: copy the node into its block. -/
def btree_node_write (st : BSt) (n : BTreeNode) : BSt :=
  { st with nodes := fun j => if j = n.block_number then n else st.nodes j }

/-- First free block below `n` (the ascending scan of `alloc_page`,
bit-granularity view of the C8-verified byte-level scan). -/
def findFreeBlk (bm : Nat → Bool) : Nat → Option Nat
  | 0 => none
  | n + 1 =>
    match findFreeBlk bm n with
    | some i => some i
    | none => if bm n then none else some n

/-- `alloc_page` at block granularity: lowest clear bit, set it;
`none` models the `-1` no-space return (on which `btree_node_create`
would address block `(uint64_t)-1`). -/
def alloc_pageT (st : BSt) : Option (Nat × BSt) :=
  (findFreeBlk st.bitmap st.total_blocks).map (fun i =>
    (i, { st with bitmap := fun j => if j = i then true else st.bitmap j }))

def free_pageT (st : BSt) (p : Nat) : BSt :=
  { st with bitmap := fun j => if j = p then false else st.bitmap j }

/-- `btree_node_create`: allocate a block and initialize every node
field through the live pointer (`btr.c:13-39`; the block-type tag
assignment on line 21 only overwrites a local pointer variable and
stores nothing).  Returns the new block number. -/
def btree_node_create (st : BSt) (leaf : Bool) : Option (Nat × BSt) := do
  let (page, st) ← alloc_pageT st
  let n : BTreeNode :=
    { block_number := page, is_leaf := leaf, num_keys := 0,
      keys := fun _ => 0, children := fun _ => 0, parent := 0,
      left_sibling := 0, right_sibling := 0, key := 0, value := 0 }
  pure (page, btree_node_write st n)

def btree_node_free (st : BSt) (n : BTreeNode) : BSt :=
  free_pageT st n.block_number

/-- Largest `i` in `[0, top]` with `children[i] ≠ 0` (the descending
scans of `btree_find_maximum` and `btree_borrow_left`). -/
def findTopChildIdx (n : BTreeNode) : Nat → Option Nat
  | 0 => if cget n 0 ≠ 0 then some 0 else none
  | i + 1 => if cget n (i + 1) ≠ 0 then some (i + 1) else findTopChildIdx n i

/-- `btree_find_maximum` (`btr.c:183-199`): rightmost descent; a leaf
returns its single `key`; `0` when no child exists (and on fuel
exhaustion, which cannot occur on the finite trees of the theorems). -/
def btree_find_maximum (st : BSt) : Nat → Nat → Nat
  | 0, _ => 0
  | fuel + 1, root_block =>
    let root := btree_node_read st root_block
    if root.is_leaf then root.key
    else
      match findTopChildIdx root root.num_keys with
      | some i => btree_find_maximum st fuel (cget root i)
      | none => 0

/-- The child scan of `btree_search` at an internal node: try
`children[i]` for `i = 0 .. num_keys` in order, returning the first
recursive result that is not `-1`. -/
def searchKids (go : Nat → Int) (node : BTreeNode) : Nat → Nat → Int
  | _, 0 => -1
  | i, cnt + 1 =>
    if cget node i ≠ 0 then
      let r := go (cget node i)
      if r ≠ -1 then r else searchKids go node (i + 1) cnt
    else searchKids go node (i + 1) cnt

/-- `btree_search` (`btr.c:87-113`): at a leaf compare the leaf's single
`key` and return its *block number*; at an internal node recursively
search every child; `-1` when absent. -/
def btree_search (st : BSt) : Nat → Nat → Nat → Int
  | 0, _, _ => -1
  | fuel + 1, node_block, key =>
    let node := btree_node_read st node_block
    if node.is_leaf then
      if node.key = key then (node.block_number : Int) else -1
    else searchKids (fun b => btree_search st fuel b key) node 0 (node.num_keys + 1)

/-- `btree_find_depth` (`btr.c:119-139`): leftmost descent counting
levels; `-1` on a non-leaf without `children[0]`. -/
def btree_find_depth (st : BSt) : Nat → Nat → Int
  | 0, _ => -1
  | fuel + 1, node_block =>
    let node := btree_node_read st node_block
    if node.is_leaf then 0
    else if node.children 0 ≠ 0 then
      let d := btree_find_depth st fuel (node.children 0)
      if d = -1 then -1 else d + 1
    else -1

/-- The child-index scan of `btree_insertion_search` (`btr.c:270-279`):
ascending over `i < num_keys`, breaking at the first child whose subtree
maximum is `≥ key`, otherwise carrying `i + 1` past each nonzero child. -/
def chooseIdx (st : BSt) (fuel key : Nat) (node : BTreeNode) : Nat → Nat → Nat → Nat
  | _, 0, acc => acc
  | i, cnt + 1, acc =>
    if cget node i ≠ 0 then
      if key ≤ btree_find_maximum st fuel (cget node i) then i
      else chooseIdx st fuel key node (i + 1) cnt (i + 1)
    else chooseIdx st fuel key node (i + 1) cnt acc

/-- The descent loop of `btree_insertion_search` (`btr.c:267-304`):
`dd` is `find_depth(root) - 1`, recomputed unchanged by the C loop
condition. -/
def insLoop (st : BSt) (key : Nat) (dd : Int) : Nat → BTreeNode → Nat → BTreeNode
  | 0, node, _ => node
  | fuel + 1, node, cur =>
    if (cur : Int) < dd then
      let ci := chooseIdx st fuel key node 0 node.num_keys 0
      let ci := if ci > node.num_keys then node.num_keys else ci
      if cget node ci ≠ 0 then
        insLoop st key dd fuel (btree_node_read st (cget node ci)) (cur + 1)
      else
        match findTopChildIdx node node.num_keys with
        | some j => insLoop st key dd fuel (btree_node_read st (cget node j)) (cur + 1)
        | none => node
    else node

/-- `btree_insertion_search` (`btr.c:251-307`): block that should
receive the new leaf. -/
def btree_insertion_search (st : BSt) (fuel : Nat) (root_block key : Nat) : Nat :=
  let root := btree_node_read st root_block
  if root.children 0 = 0 then root.block_number
  else
    let d := btree_find_depth st fuel root_block
    if d - 1 ≤ 0 then root.block_number
    else (insLoop st key (d - 1) fuel root 0).block_number

/-- The separator-recompute loop (`btr.c:238-242`, `321-325`, `622-626`,
`653-657`): for `i` below the *current* `num_keys`, set
`keys[i] := find_maximum(children[i])` for each nonzero child. -/
def updKeysLoop (st : BSt) (fuel : Nat) : BTreeNode → Nat → Nat → BTreeNode
  | p, _, 0 => p
  | p, i, cnt + 1 =>
    let p2 := if cget p i ≠ 0 then kput p i (btree_find_maximum st fuel (cget p i)) else p
    updKeysLoop st fuel p2 (i + 1) cnt

/-- `btree_update_parent_keys` (`btr.c:313-328`): the argument is the
*live* node pointer of both call sites, so the `node->parent` the
function reads is passed in. -/
def btree_update_parent_keys (st : BSt) (fuel nodeParent : Nat) : BSt :=
  if nodeParent = 0 then st
  else
    let parent := btree_node_read st nodeParent
    let parent := updKeysLoop st fuel parent 0 parent.num_keys
    btree_node_write st parent

/-- The child-position scan of `btree_insert_nonfull` (`btr.c:212-225`):
over `j = 0 .. num_keys`, a nonzero child read through the live
`get_block` pointer advances the position past leaves with a smaller
`key` and past internal nodes with a smaller subtree maximum. -/
def nonfullScan (st : BSt) (fuel : Nat) (root : BTreeNode) (key : Nat) : Nat → Nat → Nat → Nat
  | _, 0, pos => pos
  | j, cnt + 1, pos =>
    let pos2 :=
      if cget root j ≠ 0 then
        let child := st.nodes (cget root j)
        if child.is_leaf ∧ child.key < key then j + 1
        else if ¬child.is_leaf then
          if btree_find_maximum st fuel child.block_number < key then j + 1 else pos
        else pos
      else pos
    nonfullScan st fuel root key (j + 1) cnt pos2

/-- The shift loop of `btree_insert_nonfull` (`btr.c:228-230`):
`children[j+1] := children[j]` for `j` descending from `num_keys` to
`child_pos` (`cnt` iterations). -/
def shiftKidsUp : BTreeNode → Nat → Nat → BTreeNode
  | root, _, 0 => root
  | root, j, cnt + 1 => shiftKidsUp (cput root (j + 1) (cget root j)) (j - 1) cnt

/-- `btree_insert_nonfull` (`btr.c:205-249`): `root` is the caller's
stack copy (returned updated), `nodePtr` the live pointer to the node
being placed (its `parent` write hits the store).  Returns the updated
store, the updated `root` copy and the C status. -/
def btree_insert_nonfull (st : BSt) (fuel : Nat) (root : BTreeNode) (nodePtr : Nat) :
    BSt × BTreeNode × Int :=
  if root.is_leaf then (st, root, -1)
  else
    let child_pos := nonfullScan st fuel root (st.nodes nodePtr).key 0 (root.num_keys + 1) 0
    let root := shiftKidsUp root root.num_keys (root.num_keys + 1 - child_pos)
    let root := cput root child_pos (st.nodes nodePtr).block_number
    let st := updNode st nodePtr (fun n => { n with parent := root.block_number })
    let root := { root with num_keys := root.num_keys + 1 }
    let root := updKeysLoop st fuel root 0 root.num_keys
    (st, root, 0)

/-- A `BTreeNode*` argument that is a stack copy at one call site and a
live cache pointer at another (`btree_split_child`'s two parameters). -/
inductive NodeRef where
  | live (b : Nat)
  | stack (n : BTreeNode)

def refGet (st : BSt) : NodeRef → BTreeNode
  | .live b => st.nodes b
  | .stack n => n

def refUpd (st : BSt) (r : NodeRef) (f : BTreeNode → BTreeNode) : BSt × NodeRef :=
  match r with
  | .live b => (updNode st b f, .live b)
  | .stack n => (st, .stack (f n))

def refSet (st : BSt) (r : NodeRef) (n : BTreeNode) : BSt × NodeRef :=
  match r with
  | .live b => (updNode st b (fun _ => n), .live b)
  | .stack _ => (st, .stack n)

/-- `if (root->children[i] != 0) child->parent = ...` through the live
grandchild pointer (`btr.c:517-519` and friends). -/
def reparent (st : BSt) (b newPar : Nat) : BSt :=
  if b ≠ 0 then updNode st b (fun n => { n with parent := newPar }) else st

/-- First copy loop of `btree_split_root` (`btr.c:514-522`): move
`keys[i]`/`children[i]` for `i < MIN_KEYS` into the live `child_a`,
reparenting each nonzero moved child and bumping `child_a.num_keys`. -/
def srALoop (root : BTreeNode) (aBlk : Nat) : BSt → Nat → Nat → BSt
  | st, _, 0 => st
  | st, i, cnt + 1 =>
    let st := updNode st aBlk (fun a => kput a i (kget root i))
    let st := updNode st aBlk (fun a => cput a i (cget root i))
    let st := reparent st (cget root i) aBlk
    let st := updNode st aBlk (fun a => { a with num_keys := a.num_keys + 1 })
    srALoop root aBlk st (i + 1) cnt

/-- Key copy loop of `btree_split_root` (`btr.c:529-532`):
`child_b.keys[i - MIN_KEYS - 1] := root.keys[i]` for
`MIN_KEYS + 1 ≤ i < num_keys`. -/
def srBKeys (root : BTreeNode) (bBlk : Nat) : BSt → Nat → Nat → BSt
  | st, _, 0 => st
  | st, i, cnt + 1 =>
    let st := updNode st bBlk (fun b => kput b (i - MIN_KEYS - 1) (kget root i))
    let st := updNode st bBlk (fun b => { b with num_keys := b.num_keys + 1 })
    srBKeys root bBlk st (i + 1) cnt

/-- Child copy loop of `btree_split_root` (`btr.c:533-539`):
`child_b.children[i - MIN_KEYS - 1] := root.children[i]` for
`MIN_KEYS + 1 ≤ i ≤ num_keys`, reparenting nonzero moved children. -/
def srBKids (root : BTreeNode) (bBlk : Nat) : BSt → Nat → Nat → BSt
  | st, _, 0 => st
  | st, i, cnt + 1 =>
    let st := updNode st bBlk (fun b => cput b (i - MIN_KEYS - 1) (cget root i))
    let st := reparent st (cget root i) bBlk
    srBKids root bBlk st (i + 1) cnt

/-- `btree_split_root` (`btr.c:507-563`): `root` is the caller's stack
copy (every caller passes a local), `child_a`/`child_b` are live.
Returns the updated store and the updated `root` copy. -/
def btree_split_root (st : BSt) (fuel : Nat) (root : BTreeNode) :
    Option (BSt × BTreeNode) := do
  let (aBlk, st) ← btree_node_create st false
  let (bBlk, st) ← btree_node_create st false
  let st := updNode st aBlk (fun a => { a with right_sibling := bBlk })
  let st := updNode st bBlk (fun b => { b with left_sibling := aBlk })
  let st := srALoop root aBlk st 0 MIN_KEYS
  let st := updNode st aBlk (fun a => cput a MIN_KEYS (cget root MIN_KEYS))
  let st := reparent st (cget root MIN_KEYS) aBlk
  let st := srBKeys root bBlk st (MIN_KEYS + 1) (root.num_keys - (MIN_KEYS + 1))
  let st := srBKids root bBlk st (MIN_KEYS + 1) (root.num_keys - MIN_KEYS)
  let st :=
    if cget root MAX_KEYS ≠ 0 then
      let st := updNode st bBlk (fun b => cput b b.num_keys (cget root MAX_KEYS))
      reparent st (cget root MAX_KEYS) bBlk
    else st
  let root := { root with is_leaf := false, num_keys := 1 }
  let root := cput (cput root 0 aBlk) 1 bBlk
  let root := kput (kput (kput root 1 0) 2 0) 3 0
  let root := cput (cput (cput root 2 0) 3 0) 4 0
  let st := updNode st aBlk (fun a => { a with parent := root.block_number })
  let st := updNode st bBlk (fun b => { b with parent := root.block_number })
  let root := kput root 0 (btree_find_maximum st fuel aBlk)
  pure (st, root)

/-- The promote loop of `btree_promote_root` (`btr.c:579-585`): re-read
every nonzero child and write it back with `parent := root`. -/
def prLoop (st : BSt) (root : BTreeNode) : Nat → Nat → BSt
  | _, 0 => st
  | i, cnt + 1 =>
    let st2 :=
      if cget root i ≠ 0 then
        btree_node_write st { btree_node_read st (cget root i) with parent := root.block_number }
      else st
    prLoop st2 root (i + 1) cnt

/-- `btree_promote_root` (`btr.c:565-586`): copy the sole child over the
root's stack copy, keep the root's block number, free the child's block
and reparent the grandchildren. -/
def btree_promote_root (st : BSt) (root : BTreeNode) : BSt × BTreeNode :=
  let page := root.block_number
  let child := btree_node_read st (cget root 0)
  let root := { child with block_number := page, parent := 0 }
  let st := btree_node_free st child
  let st := prLoop st root 0 (root.num_keys + 1)
  (st, root)

/-- Key move loop of `btree_split_child` (`btr.c:595-599`):
`child_b.keys[i - MIN_KEYS - 1] := child.keys[i]; child.keys[i] := 0`
for `MIN_KEYS + 1 ≤ i < child.num_keys`, bumping `child_b.num_keys`. -/
def scKeys (bBlk : Nat) : BSt → NodeRef → Nat → Nat → BSt × NodeRef
  | st, child, _, 0 => (st, child)
  | st, child, i, cnt + 1 =>
    let st := updNode st bBlk (fun b => kput b (i - MIN_KEYS - 1) (kget (refGet st child) i))
    let (st, child) := refUpd st child (fun c => kput c i 0)
    let st := updNode st bBlk (fun b => { b with num_keys := b.num_keys + 1 })
    scKeys bBlk st child (i + 1) cnt

/-- Child move loop of `btree_split_child` (`btr.c:601-608`): move
`child.children[i]` into `child_b`'s low positions, reparent the moved
grandchild through its live pointer, zero the source slot. -/
def scKids (bBlk : Nat) : BSt → NodeRef → Nat → Nat → BSt × NodeRef
  | st, child, _, 0 => (st, child)
  | st, child, i, cnt + 1 =>
    let moved := cget (refGet st child) i
    let st := updNode st bBlk (fun b => cput b (i - MIN_KEYS - 1) moved)
    let st := reparent st moved bBlk
    let (st, child) := refUpd st child (fun c => cput c i 0)
    scKids bBlk st child (i + 1) cnt

/-- Descending shift on a `NodeRef` (`btr.c:614-616`, `646-648`):
`children[i + 1] := children[i]` for `i` from `top` down, `cnt`
iterations. -/
def shiftKidsUpRef : BSt → NodeRef → Nat → Nat → BSt × NodeRef
  | st, r, _, 0 => (st, r)
  | st, r, i, cnt + 1 =>
    let (st, r) := refUpd st r (fun n => cput n (i + 1) (cget n i))
    shiftKidsUpRef st r (i - 1) cnt

/-- Separator recompute over a `NodeRef` (`btr.c:622-626`, `653-657`). -/
def updKeysLoopRef (fuel : Nat) : BSt → NodeRef → Nat → Nat → BSt × NodeRef
  | st, r, _, 0 => (st, r)
  | st, r, i, cnt + 1 =>
    let (st, r) :=
      if cget (refGet st r) i ≠ 0 then
        refUpd st r (fun n => kput n i (btree_find_maximum st fuel (cget n i)))
      else (st, r)
    updKeysLoopRef fuel st r (i + 1) cnt

/-- The linear child scans at `btr.c:630-633` and `640-643`: first
`idx ≤ num_keys` with `children[idx] = target`, else `num_keys + 1`. -/
def findChildIdx (n : BTreeNode) (target : Nat) : Nat → Nat → Nat
  | i, 0 => i
  | i, cnt + 1 => if cget n i = target then i else findChildIdx n target (i + 1) cnt

/-- `btree_split_child` (`btr.c:588-660`).  `node` (the parent) and
`child` (the full node) arrive as stack copies from `btree_insert` but
as a live grandparent pointer and the current copy in the recursive call
at line 634; both are `NodeRef`s and the updated values are returned
(the C callers that passed stack copies never write them back).  Fuel
feeds the recursive overflow case and the subtree-maximum scans. -/
def btree_split_child (st : BSt) : Nat → NodeRef → Nat → NodeRef →
    Option (BSt × NodeRef × NodeRef)
  | 0, _, _, _ => none
  | fuel + 1, node, index, child => do
    let (bBlk, st) ← btree_node_create st false
    let st := updNode st bBlk (fun b => { b with parent := (refGet st node).block_number })
    let (st, child) := refUpd st child (fun c => { c with right_sibling := bBlk })
    let st := updNode st bBlk (fun b => { b with left_sibling := (refGet st child).block_number })
    let cn := (refGet st child).num_keys
    let (st, child) := scKeys bBlk st child (MIN_KEYS + 1) (cn - (MIN_KEYS + 1))
    let (st, child) := scKids bBlk st child (MIN_KEYS + 1) (cn - MIN_KEYS)
    let (st, child) := refUpd st child (fun c => kput c MIN_KEYS 0)
    let (st, child) := refUpd st child (fun c => { c with num_keys := MIN_KEYS })
    if (refGet st node).num_keys < MAX_KEYS then
      let nk := (refGet st node).num_keys
      let (st, node) := shiftKidsUpRef st node nk (nk - index)
      let (st, node) := refUpd st node (fun n => cput n (index + 1) bBlk)
      let (st, node) := refUpd st node (fun n => kput n index (btree_find_maximum st fuel bBlk))
      let st := updNode st bBlk (fun b => { b with parent := (refGet st node).block_number })
      let (st, node) := refUpd st node (fun n => { n with num_keys := n.num_keys + 1 })
      let (st, node) := updKeysLoopRef fuel st node 0 (refGet st node).num_keys
      pure (st, node, child)
    else do
      let (st, node) ←
        if (refGet st node).parent ≠ 0 then do
          let gp : NodeRef := .live (refGet st node).parent
          let gpn := refGet st gp
          let parent_index := findChildIdx gpn (refGet st node).block_number 0 (gpn.num_keys + 1)
          let (st, _, node) ← btree_split_child st fuel gp parent_index node
          pure (st, node)
        else do
          let (st, rootVal) ← btree_split_root st fuel (refGet st node)
          pure (refSet st node rootVal)
      let cpBlk := (refGet st child).parent
      let cp : NodeRef := .live cpBlk
      let cpn := refGet st cp
      let new_index := findChildIdx cpn (refGet st child).block_number 0 (cpn.num_keys + 1)
      if (refGet st cp).num_keys < MAX_KEYS then
        let nk := (refGet st cp).num_keys
        let (st, cp) := shiftKidsUpRef st cp nk (nk - new_index)
        let (st, cp) := refUpd st cp (fun n => cput n (new_index + 1) bBlk)
        let (st, cp) := refUpd st cp (fun n => { n with num_keys := n.num_keys + 1 })
        let (st, _) := updKeysLoopRef fuel st cp 0 (refGet st cp).num_keys
        pure (st, node, child)
      else pure (st, node, child)

/-- The separator scan of `btree_insert` (`btr.c:350`): first `i` with
`i = MAX_KEYS` or `keys[i] ≥ m` or `keys[i] = 0` (the loop recomputes
the same subtree maximum `m` each iteration). -/
def scanIdx (p : BTreeNode) (m : Nat) : Nat :=
  if kget p 0 < m ∧ kget p 0 ≠ 0 then
    if kget p 1 < m ∧ kget p 1 ≠ 0 then
      if kget p 2 < m ∧ kget p 2 ≠ 0 then
        if kget p 3 < m ∧ kget p 3 ≠ 0 then 4 else 3
      else 2
    else 1
  else 0

/-- `btree_insert` (`btr.c:330-372`): create the one-pair leaf through a
live pointer, find the target node, place or split.  In the
`keys[MAX_KEYS-1] < key && children[MAX_KEYS] == 0` branch the C code
updates only the stack copy `target` (never written back), so just the
new leaf's `parent` field reaches the store.  In the split branch the
updated `parent`/`target` copies that `btree_split_child` produces are
likewise dropped by the caller. -/
def btree_insert (st : BSt) (fuel : Nat) (root_block key value : Nat) : Option BSt := do
  let (nb, st) ← btree_node_create st true
  let st := updNode st nb (fun n => { n with key := key, value := value })
  let target_block := btree_insertion_search st fuel root_block key
  let target := btree_node_read st target_block
  if target.num_keys = MAX_KEYS then
    if kget target (MAX_KEYS - 1) < key ∧ cget target MAX_KEYS = 0 then
      let st := updNode st nb (fun n => { n with parent := target.block_number })
      pure (btree_update_parent_keys st fuel (st.nodes nb).parent)
    else do
      let st ←
        if target.parent ≠ 0 then do
          let parent := btree_node_read st target.parent
          let m := btree_find_maximum st fuel target.block_number
          let i := scanIdx parent m
          let (st, _, _) ← btree_split_child st fuel (.stack parent) i (.stack target)
          pure st
        else do
          let (st, _) ← btree_split_root st fuel target
          pure st
      let target_block := btree_insertion_search st fuel root_block key
      let target := btree_node_read st target_block
      let (st, target, _) := btree_insert_nonfull st fuel target nb
      let st := btree_node_write st target
      pure (btree_update_parent_keys st fuel (st.nodes nb).parent)
  else
    let (st, target, _) := btree_insert_nonfull st fuel target nb
    let st := btree_node_write st target
    pure (btree_update_parent_keys st fuel (st.nodes nb).parent)

/-- `btree_borrow_left` (`btr.c:378-403`): detach the rightmost child of
the left sibling (found by the descending scan), zeroing its separator
when it is not the last slot; returns the borrowed child's block or
`-1`.  The sibling is written back only on the scan path. -/
def btree_borrow_left (st : BSt) (node : BTreeNode) : Int × BSt :=
  if node.left_sibling = 0 then (-1, st)
  else
    let ls := btree_node_read st node.left_sibling
    if ls.num_keys = MIN_KEYS then (-1, st)
    else
      match findTopChildIdx ls ls.num_keys with
      | none => (-1, btree_node_write st ls)
      | some i =>
        let ls := if i < ls.num_keys then kput ls i 0 else ls
        let rv := cget ls i
        let ls := cput ls i 0
        let ls := { ls with num_keys := dec16 ls.num_keys }
        ((rv : Int), btree_node_write st ls)

/-- Ascending `keys[i] := keys[i+1]` shift (`btr.c:424-426`, `682-685`);
note that reading `keys[MAX_KEYS]` reads the adjacent `children[0]`. -/
def shiftKeysDown : BTreeNode → Nat → Nat → BTreeNode
  | p, _, 0 => p
  | p, i, cnt + 1 => shiftKeysDown (kput p i (kget p (i + 1))) (i + 1) cnt

/-- Ascending `children[i] := children[i+1]` shift (`btr.c:427-429`,
`688-691`); reading `children[MAX_KEYS+1]` reads the adjacent `parent`. -/
def shiftChildrenDown : BTreeNode → Nat → Nat → BTreeNode
  | p, _, 0 => p
  | p, i, cnt + 1 => shiftChildrenDown (cput p i (cget p (i + 1))) (i + 1) cnt

/-- `btree_borrow_right` (`btr.c:409-437`): take `children[0]` of the
right sibling and shift its keys and children left (the shifts run to
`MAX_KEYS`, reading one slot past each array). -/
def btree_borrow_right (st : BSt) (node : BTreeNode) : Int × BSt :=
  if node.right_sibling = 0 then (-1, st)
  else
    let rs := btree_node_read st node.right_sibling
    if rs.num_keys = MIN_KEYS then (-1, st)
    else
      let rv := cget rs 0
      let rs := shiftKeysDown rs 0 MAX_KEYS
      let rs := shiftChildrenDown rs 0 (MAX_KEYS + 1)
      let rs := kput rs (MAX_KEYS - 1) 0
      let rs := cput rs MAX_KEYS 0
      let rs := { rs with num_keys := dec16 rs.num_keys }
      ((rv : Int), btree_node_write st rs)

/-- `btree_merge_children` (`btr.c:662-717`): `parent` is a stack copy
at both call sites (and the recursive underflow call drops the copy it
mutates).  The key-copy loops run for `i = MIN_KEYS+1 .. MAX_KEYS`,
copying `child_b.keys[0]` and then *`child_b.children[0..1]`* into
`child_a.keys[3]` and `child_a.keys[4]` — the latter is out of bounds
and lands on `child_a.children[0]`; `child_b`'s children are never
copied into `child_a.children[1..]`. -/
def btree_merge_children (st : BSt) : Nat → BTreeNode → Nat → Option (BSt × BTreeNode)
  | 0, _, _ => none
  | fuel + 1, parent, index =>
    if index = MAX_KEYS then btree_merge_children st fuel parent (index - 1)
    else if cget parent index = 0 ∨ cget parent (index + 1) = 0 then pure (st, parent)
    else do
      let child_a := btree_node_read st (cget parent index)
      let child_b := btree_node_read st (cget parent (index + 1))
      let child_a := { child_a with right_sibling := child_b.right_sibling }
      -- for (i = MIN_KEYS+1; i < MAX_KEYS; i++): the single iteration i = 3
      let child_a := kput child_a 3 (kget child_b 0)
      let child_a := { child_a with num_keys := child_a.num_keys + 1 }
      -- for (i = MIN_KEYS+1; i <= MAX_KEYS; i++): i = 3 and the out-of-bounds i = 4
      let child_a := kput child_a 3 (cget child_b 0)
      let child_a := kput child_a 4 (cget child_b 1)
      let st := btree_node_write st child_a
      let parent := shiftKeysDown parent (index + 1) (MAX_KEYS - 1 - (index + 1))
      let parent := kput parent (MAX_KEYS - 1) 0
      let parent := shiftChildrenDown parent (index + 1) (MAX_KEYS - (index + 1))
      let st := btree_node_free st child_b
      let parent := { parent with num_keys := dec16 parent.num_keys }
      if parent.num_keys < MIN_KEYS then
        if parent.parent = 0 then
          if cget parent 1 = 0 then pure (btree_promote_root st parent)
          else pure (st, parent)
        else
          let (rv, st) := btree_borrow_left st parent
          if rv = -1 then
            let (rv, st) := btree_borrow_right st parent
            if rv = -1 then do
              let grandparent := btree_node_read st parent.parent
              let m := btree_find_maximum st fuel parent.block_number
              let j := scanIdx grandparent m
              let (st, _) ← btree_merge_children st fuel grandparent j
              pure (st, parent)
            else pure (st, parent)
          else pure (st, parent)
      else pure (st, parent)

/-! #### Initialization (`main.c`) and concrete runs for claims C1-C5 -/

/-- Content of a block on a fresh (all-zero) image, seen as a node. -/
def zeroNode : BTreeNode :=
  { block_number := 0, is_leaf := false, num_keys := 0, keys := fun _ => 0,
    children := fun _ => 0, parent := 0, left_sibling := 0, right_sibling := 0,
    key := 0, value := 0 }

def initBSt (n : Nat) : BSt := ⟨n, fun _ => false, fun _ => zeroNode⟩

/-- `main.c:13-14`: reserve block 0, then create the root as an internal
node; the root lands in block 1. -/
def btInit (n : Nat) : Option (Nat × BSt) := do
  let (_, st) ← alloc_pageT (initBSt n)
  btree_node_create st false

/-- Fuel ample for every run below (trees of height ≤ 2 on ≤ 7 nodes). -/
def FUEL : Nat := 20

/-- Fresh tree, one insert of `(10, 100)`. -/
def runC2 : Option BSt := do
  let (rb, st) ← btInit 64
  btree_insert st FUEL rb 10 100

/-- Fresh tree, inserts `(10,100) (20,200) (30,300) (40,400) (50,500)`
with distinct keys. -/
def runC1 : Option BSt := do
  let (rb, st) ← btInit 64
  let st ← btree_insert st FUEL rb 10 100
  let st ← btree_insert st FUEL rb 20 200
  let st ← btree_insert st FUEL rb 30 300
  let st ← btree_insert st FUEL rb 40 400
  btree_insert st FUEL rb 50 500

/-- C1: the claim says that after a sequence of inserts with distinct
keys, `btree_search` returns the inserted value for *every* inserted
key and the absence value for others.  After the five inserts of
`runC1`, the fifth key 50 *was* inserted (its leaf, block 6, is
allocated and carries `key = 50` with `parent = 1`), yet
`btree_search(root, 50) = -1`, the absence value: the fifth insert took
the `keys[MAX_KEYS-1] < key && children[MAX_KEYS] == 0` branch of
`btree_insert`, which updates only the stack copy of the full root and
never writes it back, so the root still has `children[4] = 0` and the
leaf is unreachable.  (Also visible: `btree_search(root, 10)` returns
`2` — the leaf's block number per `btr.h`'s own documentation — not the
stored value 100.) -/
theorem btree_insert_fifth_key_lost :
    (runC1.map (fun st =>
        (btree_search st FUEL 1 50, btree_search st FUEL 1 10,
         st.bitmap 6, (st.nodes 6).key, (st.nodes 6).parent,
         (st.nodes 1).num_keys, (st.nodes 1).children 4))) =
      some (-1, 2, true, 50, 1, 4, 0) := by
  rfl

/-- C2: the claim says every non-root node has
`MIN_KEYS ≤ num_keys ≤ MAX_KEYS` after every completed insert.  After
the single completed insert of `runC2`, the new leaf (block 2) is a
non-root node (`parent = 1 ≠ 0`) with `num_keys = 0 < MIN_KEYS`: leaves
in this source store their one pair in `key`/`value` and always keep
`num_keys = 0`. -/
theorem btree_insert_leaf_underflow :
    (runC2.map (fun st =>
        ((st.nodes 2).is_leaf, (st.nodes 2).parent, (st.nodes 2).num_keys,
         (st.nodes 2).key, (st.nodes 2).value))) =
      some (true, 1, 0, 10, 100) := by
  rfl

/-- Fresh tree, insert `(10, 100)`. -/
def runC5a : Option BSt := do
  let (rb, st) ← btInit 64
  btree_insert st FUEL rb 10 100

/-- `runC5a` followed by an insert of the *same key* with a new value. -/
def runC5b : Option BSt := do
  let st ← runC5a
  btree_insert st FUEL 1 10 999

/-- C5 (counterexample): the claim says inserting an existing key
overwrites the stored value with no structural change and no node
allocation.  Re-inserting key 10 allocates a fresh block (3): block 3
is free after the first insert and allocated after the duplicate
insert. -/
theorem btree_insert_duplicate_allocates :
    (runC5a.map (fun st => st.bitmap 3)) = some false ∧
    (runC5b.map (fun st => st.bitmap 3)) = some true := by
  exact ⟨rfl, rfl⟩

/-- C5 (amended): `btree_insert` has no duplicate handling at all: the
duplicate insert allocates a second leaf (block 3) holding
`(10, 999)`, hangs it off the root *in front of* the old leaf, and
leaves the old leaf's value 100 in place; the root grows to two
children and a search now reaches the new leaf (block 3). -/
theorem btree_insert_duplicate_behavior :
    (runC5b.map (fun st =>
        ((st.nodes 2).key, (st.nodes 2).value, (st.nodes 3).is_leaf,
         (st.nodes 3).key, (st.nodes 3).value, (st.nodes 1).num_keys,
         (st.nodes 1).children 0, (st.nodes 1).children 1,
         btree_search st FUEL 1 10))) =
      some (10, 100, true, 10, 999, 2, 3, 2, 3) := by
  rfl

/-- Node builder for the concrete stores below. -/
def mkNode (b : Nat) (leaf : Bool) (nk : Nat) (ks cs : List Nat) (par ls rs k v : Nat) :
    BTreeNode :=
  { block_number := b, is_leaf := leaf, num_keys := nk,
    keys := fun i => ks.getD i 0, children := fun i => cs.getD i 0,
    parent := par, left_sibling := ls, right_sibling := rs, key := k, value := v }

/-- A parent (block 1) with three internal children 2, 3, 4; children 2
and 3 each hold `MIN_KEYS` keys and two leaf children, ready to merge. -/
def c4st : BSt :=
  { total_blocks := 64,
    bitmap := fun b => b = 0 ∨ b = 1 ∨ b = 2 ∨ b = 3 ∨ b = 4 ∨ b = 11 ∨ b = 12 ∨ b = 13 ∨ b = 14,
    nodes := fun b =>
      if b = 1 then mkNode 1 false 3 [20, 40, 99] [2, 3, 4] 0 0 0 0 0
      else if b = 2 then mkNode 2 false 2 [10, 20] [11, 12] 1 0 3 0 0
      else if b = 3 then mkNode 3 false 2 [30, 40] [13, 14] 1 2 4 0 0
      else if b = 4 then mkNode 4 false 2 [50, 99] [0, 0] 1 3 0 0 0
      else if b = 11 then mkNode 11 true 0 [] [] 2 0 0 10 1
      else if b = 12 then mkNode 12 true 0 [] [] 2 0 0 20 2
      else if b = 13 then mkNode 13 true 0 [] [] 3 0 0 30 3
      else if b = 14 then mkNode 14 true 0 [] [] 3 0 0 40 4
      else zeroNode }

/-- C4: the claim says the surviving node holds the keys of both nodes
in its keys array and the children of both in its children array (size
`2·MIN_KEYS = 4`).  Merging children 2 (`keys [10,20]`,
`children [11,12]`) and 3 (`keys [30,40]`, `children [13,14]`) of the
parent instead leaves the survivor with `num_keys = 3`, the *child
block number* 13 in `keys[3]` (the key copy is overwritten by
`child_b.children[0]`), `children[0]` clobbered to 14 by the
out-of-bounds `keys[4]` store (it was 11), and none of `child_b`'s
children copied into `children[1..]` (`children[2]` stays 0).  The
merged-out block 3 is freed and the parent drops to 2 keys with child 4
shifted down, as claimed. -/
theorem btree_merge_children_keys_clobbered :
    ((btree_merge_children c4st FUEL (c4st.nodes 1) 0).map (fun r =>
        ((r.1.nodes 2).num_keys, kget (r.1.nodes 2) 0, kget (r.1.nodes 2) 1,
         kget (r.1.nodes 2) 3, cget (r.1.nodes 2) 0, cget (r.1.nodes 2) 1,
         cget (r.1.nodes 2) 2, (r.1.nodes 2).right_sibling,
         r.1.bitmap 3, r.2.num_keys, cget r.2 1))) =
      some (3, 10, 20, 13, 14, 12, 0, 4, false, 2, 4) := by
  rfl

/-- A parent (block 1) whose child N (block 2) is full (`num_keys = 4`,
five leaf children 10-14) and has a right sibling R (block 5) with
`R.left_sibling = N`; the first free block is 6. -/
def c3st : BSt :=
  { total_blocks := 64,
    bitmap := fun b => b = 0 ∨ b = 1 ∨ b = 2 ∨ b = 3 ∨ b = 4 ∨ b = 5 ∨ b = 10 ∨ b = 11 ∨ b = 12 ∨ b = 13 ∨ b = 14,
    nodes := fun b =>
      if b = 1 then mkNode 1 false 1 [40, 0] [2, 5] 0 0 0 0 0
      else if b = 2 then mkNode 2 false 4 [10, 20, 30, 40] [10, 11, 12, 13, 14] 1 0 5 0 0
      else if b = 5 then mkNode 5 false 1 [99] [0] 1 2 0 0 0
      else if b = 10 then mkNode 10 true 0 [] [] 2 0 0 5 1
      else if b = 11 then mkNode 11 true 0 [] [] 2 0 0 15 2
      else if b = 12 then mkNode 12 true 0 [] [] 2 0 0 25 3
      else if b = 13 then mkNode 13 true 0 [] [] 2 0 0 35 4
      else if b = 14 then mkNode 14 true 0 [] [] 2 0 0 45 5
      else zeroNode }

/-- C3 (counterexample): the claim says the split leaves
`N'.num_keys = MAX_KEYS - MIN_KEYS = 2`, `N'.right_sibling =` N's old
right sibling, and `(old right sibling).left_sibling = N'`.  Splitting
the full node 2 under parent 1 creates `N' =` block 6 with
`num_keys = 1`, `right_sibling = 0`, and leaves block 5's
`left_sibling = 2` (pointing at N, not N'). -/
theorem btree_split_child_sibling_counterexample :
    ((btree_split_child c3st 9 (.stack (c3st.nodes 1)) 0 (.stack (c3st.nodes 2))).map
        (fun r => ((r.1.nodes 6).num_keys, (r.1.nodes 6).right_sibling,
                   (r.1.nodes 5).left_sibling))) =
      some (1, 0, 2) := by
  rfl

/-- The C3 store with the full node's keys `k0..k3` left universally
quantified (the split's data movement must hold for every payload):
same shape as `c3st`. -/
def c3stP (k0 k1 k2 k3 : Nat) : BSt :=
  { total_blocks := 64,
    bitmap := fun b => b = 0 ∨ b = 1 ∨ b = 2 ∨ b = 3 ∨ b = 4 ∨ b = 5 ∨ b = 10 ∨ b = 11 ∨ b = 12 ∨ b = 13 ∨ b = 14,
    nodes := fun b =>
      if b = 1 then mkNode 1 false 1 [40, 0] [2, 5] 0 0 0 0 0
      else if b = 2 then mkNode 2 false 4 [k0, k1, k2, k3] [10, 11, 12, 13, 14] 1 0 5 0 0
      else if b = 5 then mkNode 5 false 1 [99] [0] 1 2 0 0 0
      else if b = 10 then mkNode 10 true 0 [] [] 2 0 0 5 1
      else if b = 11 then mkNode 11 true 0 [] [] 2 0 0 15 2
      else if b = 12 then mkNode 12 true 0 [] [] 2 0 0 25 3
      else if b = 13 then mkNode 13 true 0 [] [] 2 0 0 35 4
      else if b = 14 then mkNode 14 true 0 [] [] 2 0 0 45 5
      else zeroNode }

/-- C3 (amended): what `btree_split_child` actually does to the full
node N (block 2, keys `k0..k3`) under parent P (block 1) with right
sibling R (block 5): N keeps its lower half (`num_keys = MIN_KEYS`,
upper slots zeroed) and gets `right_sibling = N' = 6`; the new sibling
N' receives only `keys[MIN_KEYS+1..]` (that is `k3` alone, so
`num_keys = MAX_KEYS - MIN_KEYS - 1 = 1`, not 2 — `keys[MIN_KEYS]` is
dropped to 0) and `children[MIN_KEYS+1..] = [13, 14]`, whose nodes are
reparented to N'; `N'.left_sibling = N` and `N.right_sibling = N'` are
the only sibling links set: `N'.right_sibling` stays 0 and R's
`left_sibling` still points at N.  The parent copy gains the separator
child (`num_keys = 2`, `children = [2, 6, 5]`), and block 6 is newly
allocated.  This holds for every key payload `k0..k3`. -/
theorem btree_split_child_spec (k0 k1 k2 k3 : Nat) :
    ((btree_split_child (c3stP k0 k1 k2 k3) 9
        (.stack ((c3stP k0 k1 k2 k3).nodes 1)) 0
        (.stack ((c3stP k0 k1 k2 k3).nodes 2))).map (fun r =>
      match r with
      | (st2, .stack nv, .stack cv) =>
        some (cv.num_keys, cv.right_sibling, cv.keys 0, cv.keys 1, cv.keys 2, cv.keys 3,
              cv.children 3, cv.children 4,
              (st2.nodes 6).num_keys, (st2.nodes 6).keys 0,
              (st2.nodes 6).children 0, (st2.nodes 6).children 1,
              (st2.nodes 6).left_sibling, (st2.nodes 6).right_sibling, (st2.nodes 6).parent,
              (st2.nodes 13).parent, (st2.nodes 14).parent,
              (st2.nodes 5).left_sibling, (st2.nodes 5).right_sibling,
              nv.num_keys, nv.children 0, nv.children 1, nv.children 2,
              st2.bitmap 6)
      | _ => none)) =
      some (some (MIN_KEYS, 6, k0, k1, 0, 0, 0, 0,
                  1, k3, 13, 14, 2, 0, 1, 6, 6, 2, 0, 2, 2, 6, 5, true)) := by
  rfl
